import Mathlib

/-!
Parser construction in `parser/parser.go`.

A shallow embedding of `checkConfig`, `findFile`, `New` and `ccParserConfig`.

* Go strings and byte slices are Lean `String`s; `len(s) > 0` is `s ≠ ""`.
* A Go `error` is its message; a `(value, error)` result is an `Except String`,
  or a pair when the code reads the value next to a non-nil error.
* A `*Config` argument is an `Option Config` (`none` is `nil`); the in-place
  updates of the configuration become the returned record.
* The package-level tables and constants the file uses but does not declare
  (`arches`, `predefines`, `predefinedBase`, `Arch32`, `Arch64`) are the fields
  of `Tables`; the operating system and the external `cc` package are the fields
  of `Env`. Both are arbitrary in every general theorem.
-/

set_option autoImplicit false

namespace CForGo

/-- The type `TargetArchBits` is declared outside `parser.go`; it is compared with
`!=` and keys a map, and is taken to be an integer type whose zero value is `0`. -/
abbrev TargetArchBits := Int

/-- Package-level declarations that `parser.go` reads and does not define. -/
structure Tables where
  /-- The lookup `arches[name]`: `none` when the comma-ok form reports `!ok`. -/
  arches : String → Option TargetArchBits
  /-- The lookup `predefines[bits]`: `none` when the comma-ok form reports `!ok`. -/
  predefines : TargetArchBits → Option String
  predefinedBase : String
  Arch32 : TargetArchBits
  Arch64 : TargetArchBits

/-- The `type Config struct` of `parser.go`. -/
structure Config where
  Arch : String := ""
  CustomDefinesPath : String := ""
  WebIncludesEnabled : Bool := false
  WebIncludePrefix : String := ""
  IncludePaths : List String := []
  TargetPaths : List String := []
  SourceBody : String := ""
  archBits : TargetArchBits := 0
  deriving DecidableEq, Repr

/-- The result of `NewConfig(paths...)`. -/
def NewConfig (paths : List String) : Config :=
  { TargetPaths := paths }

/-- The part of `os.FileInfo` the code reads: `info.IsDir()`. -/
structure FileInfo where
  IsDir : Bool
  deriving DecidableEq, Repr

/-- The `cc.ParseConfig` literal built by `ccParserConfig`. -/
structure ParseConfig where
  Predefined : String
  Paths : List String
  Body : String
  SysIncludePaths : List String
  WebIncludesEnabled : Bool
  WebIncludePrefix : String
  deriving DecidableEq, Repr

/-- The operating system and library calls made by `parser.go`. -/
structure Env where
  /-- The call `os.Stat(p)`: `none` when `err != nil`. -/
  Stat : String → Option FileInfo
  /-- The call `filepath.IsAbs(p)`. -/
  IsAbs : String → Bool
  /-- The call `filepath.Join(inc, p)`. -/
  Join : String → String → String
  /-- The call `filepath.Abs(p)`: the returned string and the returned error (`none` is `nil`). -/
  Abs : String → String × Option String
  /-- The call `ioutil.ReadFile(p)`: `none` when `err != nil`. -/
  ReadFile : String → Option String
  /-- The call `cc.CheckParseConfig(c)`: the returned error (`none` is `nil`). -/
  CheckParseConfig : ParseConfig → Option String

/-- The `type Parser struct` of `parser.go`. -/
structure Parser where
  cfg : Config
  ccCfg : Option ParseConfig
  predefined : String
  deriving DecidableEq, Repr

/-- Embedding of `checkConfig` (lines 31-43). -/
def checkConfig (t : Tables) (cfg : Option Config) : Config :=
  let cfg : Config := match cfg with
    | none => {}
    | some c => c
  match t.arches cfg.Arch with
  | none => { cfg with archBits := t.Arch64 }
  | some arch =>
    if arch ≠ t.Arch32 ∧ arch ≠ t.Arch64 then { cfg with archBits := t.Arch64 }
    else cfg

/-- The `for _, inc := range includePaths` loop of `findFile` (lines 105-111). -/
def findFileLoop (env : Env) (path : String) : List String → Except String String
  | [] => .error "not found"
  | inc :: rest =>
    let result := env.Join inc path
    match env.Stat result with
    | some _ => .ok result
    | none => findFileLoop env path rest

/-- Embedding of `findFile` (lines 101-112). -/
def findFile (env : Env) (path : String) (includePaths : List String) : Except String String :=
  match env.Stat path with
  | some _ => .ok path
  | none => findFileLoop env path includePaths

/-- The message built by `fmt.Errorf` on lines 61-62. -/
def notFoundMessage (path : String) (includePaths : List String) : String :=
  "parser: file specified but not found: " ++ path ++ " (include paths: " ++
    String.intercalate ", " includePaths ++ ")"

/-- The `for _, path := range p.cfg.TargetPaths` loop of `New` (lines 58-75); the
second list argument is `saneFiles` as accumulated so far. -/
def saneFilesLoop (env : Env) (includePaths : List String) :
    List String → List String → Except String (List String)
  | [], saneFiles => .ok saneFiles
  | path :: rest, saneFiles =>
    let located : Except String String :=
      if env.IsAbs path = false then
        match findFile env path includePaths with
        | .error _ => .error (notFoundMessage path includePaths)
        | .ok hPath => .ok hPath
      else .ok path
    match located with
    | .error err => .error err
    | .ok path =>
      match env.Stat path with
      | none => saneFilesLoop env includePaths rest saneFiles
      | some info =>
        if info.IsDir then saneFilesLoop env includePaths rest saneFiles
        else
          let path := match env.Abs path with
            | (absPath, some _) => absPath
            | (_, none) => path
          saneFilesLoop env includePaths rest (saneFiles ++ [path])

/-- The path-processing step of `New` (lines 55-79) on the checked configuration. -/
def processTargetPaths (env : Env) (cfg : Config) : Except String Config :=
  if cfg.TargetPaths.length > 0 then
    match saneFilesLoop env cfg.IncludePaths cfg.TargetPaths [] with
    | .error err => .error err
    | .ok saneFiles => .ok { cfg with TargetPaths := saneFiles }
  else .error "parser: no target paths specified"

/-- The base predefined text chosen on lines 81-85. -/
def basePredefined (t : Tables) (cfg : Config) : String :=
  match t.predefines cfg.archBits with
  | none => t.predefinedBase
  | some d => d

/-- The predefined text after lines 81-92, or the error of line 88. -/
def buildPredefined (t : Tables) (env : Env) (cfg : Config) : Except String String :=
  let predefined := basePredefined t cfg
  if cfg.CustomDefinesPath.length > 0 then
    match env.ReadFile cfg.CustomDefinesPath with
    | none => .error "parser: custom defines file provided but can\x27t be read"
    | some buf =>
      if buf.length > 0 then .ok (predefined ++ "\n// custom defines below\n" ++ buf)
      else .ok predefined
  else .ok predefined

/-- The `cc.ParseConfig` literal of `ccParserConfig` (lines 115-122). -/
def mkParseConfig (p : Parser) : ParseConfig :=
  { Predefined := p.predefined
    Paths := p.cfg.TargetPaths
    Body := p.cfg.SourceBody
    SysIncludePaths := p.cfg.IncludePaths
    WebIncludesEnabled := p.cfg.WebIncludesEnabled
    WebIncludePrefix := p.cfg.WebIncludePrefix }

/-- Embedding of `(*Parser).ccParserConfig` (lines 114-127). -/
def ccParserConfig (env : Env) (p : Parser) : Except String ParseConfig :=
  let ccCfg := mkParseConfig p
  match env.CheckParseConfig ccCfg with
  | some err => .error err
  | none => .ok ccCfg

/-- Embedding of `New` (lines 51-99). -/
def New (t : Tables) (env : Env) (cfg : Option Config) : Except String Parser :=
  match processTargetPaths env (checkConfig t cfg) with
  | .error err => .error err
  | .ok cfg =>
    match buildPredefined t env cfg with
    | .error err => .error err
    | .ok predefined =>
      let p : Parser := { cfg := cfg, ccCfg := none, predefined := predefined }
      match ccParserConfig env p with
      | .error err => .error err
      | .ok ccCfg => .ok { p with ccCfg := some ccCfg }

/-! Specification-side definitions. -/

/-- The configuration `checkConfig` works on: the argument, or `&Config{}` for `nil`. -/
def orEmpty (cfg : Option Config) : Config :=
  cfg.getD {}

/-- The candidates `findFile` is specified to try, in order: the path itself, then
`filepath.Join(inc, path)` for each include path. -/
def candidates (env : Env) (path : String) (includePaths : List String) : List String :=
  path :: includePaths.map (fun inc => env.Join inc path)

/-- A candidate exists when `os.Stat` reports no error for it. -/
def fileExists (env : Env) (p : String) : Bool :=
  (env.Stat p).isSome

/-- Handing a predefined text to the external package: the `cc.ParseConfig` built
from the processed configuration `cfg` and the text, checked by
`cc.CheckParseConfig`, whose error is returned unchanged. -/
def handOver (env : Env) (cfg : Config) (text : String) : Except String Parser :=
  let cc : ParseConfig :=
    { Predefined := text
      Paths := cfg.TargetPaths
      Body := cfg.SourceBody
      SysIncludePaths := cfg.IncludePaths
      WebIncludesEnabled := cfg.WebIncludesEnabled
      WebIncludePrefix := cfg.WebIncludePrefix }
  match env.CheckParseConfig cc with
  | some err => .error err
  | none => .ok { cfg := cfg, ccCfg := some cc, predefined := text }

/-! Concrete environments. -/

/-- A table set with one 32-bit and one 64-bit architecture. -/
def demoTables : Tables where
  arches := fun a => if a = "386" then some 32 else if a = "amd64" then some 64
    else if a = "x32" then some 48 else none
  predefines := fun b => if b = 32 then some "#define __i386__ 1\n"
    else if b = 64 then some "#define __x86_64__ 1\n" else none
  predefinedBase := "#define __STDC__ 1\n"
  Arch32 := 32
  Arch64 := 64

/-- A Unix-like file system with working directory `/work`: regular files
`/work/foo.h`, `/work/inc/bar.h`, `/work/defs.h` (one line), `/work/empty.h`
(no bytes) and `/abs/x.h`; directories `/work/inc`, `/work/sub` and `/usr/include`.
The external validator accepts everything. -/
def demoEnv : Env where
  Stat := fun p =>
    if p = "foo.h" ∨ p = "inc/bar.h" ∨ p = "/abs/x.h" ∨ p = "defs.h" ∨ p = "empty.h" then
      some { IsDir := false }
    else if p = "inc" ∨ p = "sub" ∨ p = "/usr/include" then some { IsDir := true }
    else none
  IsAbs := fun p => p.data.head? = some '/'
  Join := fun inc p => inc ++ "/" ++ p
  Abs := fun p => if p.data.head? = some '/' then (p, none) else ("/work/" ++ p, none)
  ReadFile := fun p =>
    if p = "defs.h" then some "#define X 1\n" else if p = "empty.h" then some "" else none
  CheckParseConfig := fun _ => none

/-- The file system of `demoEnv` when the working directory cannot be determined:
`filepath.Abs` of a relative path returns the empty string and an error. -/
def noCwdEnv : Env :=
  { demoEnv with
    Abs := fun p => if p.data.head? = some '/' then (p, none) else ("", some "getwd failed") }

/-! Auxiliary lemmas and claims. -/

theorem checkConfig_cases (t : Tables) (cfg : Option Config) :
    checkConfig t cfg = orEmpty cfg ∨
      checkConfig t cfg = { orEmpty cfg with archBits := t.Arch64 } := by
  cases cfg <;> simp only [checkConfig, orEmpty, Option.getD] <;> split <;>
    first | (right; rfl) | (split <;> first | (right; rfl) | (left; rfl))

theorem checkConfig_TargetPaths (t : Tables) (cfg : Option Config) :
    (checkConfig t cfg).TargetPaths = (orEmpty cfg).TargetPaths := by
  rcases checkConfig_cases t cfg with h | h <;> rw [h]

theorem checkConfig_IncludePaths (t : Tables) (cfg : Option Config) :
    (checkConfig t cfg).IncludePaths = (orEmpty cfg).IncludePaths := by
  rcases checkConfig_cases t cfg with h | h <;> rw [h]

theorem checkConfig_CustomDefinesPath (t : Tables) (cfg : Option Config) :
    (checkConfig t cfg).CustomDefinesPath = (orEmpty cfg).CustomDefinesPath := by
  rcases checkConfig_cases t cfg with h | h <;> rw [h]

theorem orEmpty_TargetPaths_eq_nil (cfg : Option Config) :
    (orEmpty cfg).TargetPaths = [] ↔ ∀ c, cfg = some c → c.TargetPaths = [] := by
  cases cfg <;> simp [orEmpty]

theorem processTargetPaths_nil (env : Env) (cfg : Config) (h : cfg.TargetPaths = []) :
    processTargetPaths env cfg = .error "parser: no target paths specified" := by
  simp [processTargetPaths, h]

theorem New_of_processTargetPaths_error (t : Tables) (env : Env) (cfg : Option Config)
    (e : String) (h : processTargetPaths env (checkConfig t cfg) = .error e) :
    New t env cfg = .error e := by
  simp [New, h]

/-- C1: for every configuration, `nil` included, whose `TargetPaths` and
`SourceBody` are both empty, `New` returns no parser and the error
"parser: no target paths specified". -/
theorem New_fails_without_input (t : Tables) (env : Env) (cfg : Option Config)
    (hT : ∀ c, cfg = some c → c.TargetPaths = [])
    (_hS : ∀ c, cfg = some c → c.SourceBody = "") :
    New t env cfg = .error "parser: no target paths specified" := by
  apply New_of_processTargetPaths_error
  apply processTargetPaths_nil
  rw [checkConfig_TargetPaths]
  exact (orEmpty_TargetPaths_eq_nil cfg).mpr hT

theorem New_fails_without_input_witness :
    (New demoTables demoEnv none = .error "parser: no target paths specified") ∧
    (New demoTables demoEnv (some { Arch := "386", IncludePaths := ["inc"] }) =
      .error "parser: no target paths specified") :=
  ⟨New_fails_without_input demoTables demoEnv none (by simp) (by simp),
   New_fails_without_input demoTables demoEnv (some { Arch := "386", IncludePaths := ["inc"] })
    (by intro c h; cases h; rfl) (by intro c h; cases h; rfl)⟩

theorem notFoundMessage_ne (path : String) (includePaths : List String) :
    notFoundMessage path includePaths ≠ "parser: no target paths specified" := by
  intro h
  have h2 := congrArg (fun s => s.data.take 9) h
  simp [notFoundMessage, String.data_append] at h2

theorem saneFilesLoop_error (env : Env) (includePaths : List String) (e : String) :
    ∀ (paths saneFiles : List String),
      saneFilesLoop env includePaths paths saneFiles = .error e →
      ∃ p, p ∈ paths ∧ e = notFoundMessage p includePaths := by
  intro paths
  induction paths with
  | nil => intro saneFiles h; simp [saneFilesLoop] at h
  | cons path rest ih =>
    intro saneFiles h
    have step : ∀ acc, saneFilesLoop env includePaths rest acc = .error e →
        ∃ p, p ∈ path :: rest ∧ e = notFoundMessage p includePaths := by
      intro acc hacc
      obtain ⟨p, hp, he⟩ := ih acc hacc
      exact ⟨p, List.mem_cons_of_mem _ hp, he⟩
    simp only [saneFilesLoop] at h
    split at h
    · rename_i err hloc
      split at hloc
      · split at hloc
        · cases hloc; cases h
          exact ⟨path, List.mem_cons_self _ _, rfl⟩
        · cases hloc
      · cases hloc
    · split at h
      · exact step _ h
      · split at h
        · exact step _ h
        · exact step _ h

/-- C2 (as amended): when the external validator does not itself answer with the
message "parser: no target paths specified", `New` returns that error exactly when
`TargetPaths` is empty; `SourceBody` plays no part in the check. -/
theorem New_missing_target_iff (t : Tables) (env : Env) (cfg : Option Config)
    (hext : ∀ c, env.CheckParseConfig c ≠ some "parser: no target paths specified") :
    New t env cfg = .error "parser: no target paths specified" ↔
      ∀ c, cfg = some c → c.TargetPaths = [] := by
  constructor
  · intro h
    rw [← orEmpty_TargetPaths_eq_nil, ← checkConfig_TargetPaths t]
    by_contra hne
    have hlen : (checkConfig t cfg).TargetPaths.length > 0 := List.length_pos.mpr hne
    simp only [New, processTargetPaths, hlen, if_true] at h
    split at h
    · rename_i err hproc
      split at hproc
      · rename_i err2 hloop
        cases hproc; cases h
        obtain ⟨p, _, he⟩ := saneFilesLoop_error env _ _ _ _ hloop
        exact notFoundMessage_ne _ _ he.symm
      · cases hproc
    · split at h
      · rename_i err hb
        cases h
        simp only [buildPredefined] at hb
        split at hb
        · split at hb
          · exact absurd (Except.error.inj hb) (by decide)
          · split at hb <;> cases hb
        · cases hb
      · split at h
        · rename_i err hcc
          cases h
          simp only [ccParserConfig] at hcc
          split at hcc
          · rename_i err3 hchk
            cases hcc
            exact hext _ hchk
          · cases hcc
        · cases h
  · intro hT
    apply New_of_processTargetPaths_error
    apply processTargetPaths_nil
    rw [checkConfig_TargetPaths]
    exact (orEmpty_TargetPaths_eq_nil cfg).mpr hT

theorem New_missing_target_iff_witness :
    (∀ c, demoEnv.CheckParseConfig c ≠ some "parser: no target paths specified") ∧
    (New demoTables demoEnv (some { SourceBody := "int x;" }) =
        .error "parser: no target paths specified" ↔
      ∀ c, some ({ SourceBody := "int x;" } : Config) = some c → c.TargetPaths = []) :=
  ⟨fun c => by simp [demoEnv],
   New_missing_target_iff demoTables demoEnv (some { SourceBody := "int x;" })
     (fun c => by simp [demoEnv])⟩

/-- C2 (counterexample): a configuration with no target paths and the inline source
body "int x;" still gets the error "parser: no target paths specified". -/
theorem New_source_body_alone_rejected :
    ¬ (∀ (t : Tables) (env : Env) (cfg : Config),
        New t env (some cfg) = .error "parser: no target paths specified" →
        cfg.TargetPaths = [] ∧ cfg.SourceBody = "") := by
  intro h
  have h2 := (h demoTables demoEnv { SourceBody := "int x;" } rfl).2
  exact absurd h2 (by decide)

theorem findFileLoop_ok_iff (env : Env) (path : String) (r : String) :
    ∀ includePaths : List String,
      findFileLoop env path includePaths = .ok r ↔
        ∃ pre post, includePaths.map (fun inc => env.Join inc path) = pre ++ r :: post ∧
          (∀ c ∈ pre, fileExists env c = false) ∧ fileExists env r = true := by
  intro includePaths
  induction includePaths with
  | nil => simp [findFileLoop]
  | cons inc rest ih =>
    simp only [findFileLoop, List.map_cons]
    cases hst : env.Stat (env.Join inc path) with
    | some info =>
      simp only
      constructor
      · intro h
        cases h
        exact ⟨[], _, rfl, by simp, by simp [fileExists, hst]⟩
      · rintro ⟨pre, post, heq, hpre, _⟩
        cases pre with
        | nil => simp at heq; rw [heq.1]
        | cons c pre =>
          simp at heq
          have := hpre c (List.mem_cons_self _ _)
          rw [← heq.1] at this
          simp [fileExists, hst] at this
    | none =>
      simp only
      rw [ih]
      constructor
      · rintro ⟨pre, post, heq, hpre, hr⟩
        refine ⟨env.Join inc path :: pre, post, by simp [heq], ?_, hr⟩
        intro c hc
        rcases List.mem_cons.mp hc with h | h
        · simp [h, fileExists, hst]
        · exact hpre c h
      · rintro ⟨pre, post, heq, hpre, hr⟩
        cases pre with
        | nil =>
          simp at heq
          rw [← heq.1] at hr
          simp [fileExists, hst] at hr
        | cons c pre =>
          simp at heq
          exact ⟨pre, post, heq.2, fun d hd => hpre d (List.mem_cons_of_mem _ hd), hr⟩

theorem findFileLoop_error_iff (env : Env) (path : String) (e : String) :
    ∀ includePaths : List String,
      findFileLoop env path includePaths = .error e ↔
        e = "not found" ∧
          ∀ c ∈ includePaths.map (fun inc => env.Join inc path), fileExists env c = false := by
  intro includePaths
  induction includePaths with
  | nil =>
    simp only [findFileLoop, List.map_nil, List.not_mem_nil, false_imp_iff, implies_true,
      and_true]
    constructor
    · intro h; cases h; rfl
    · intro h; rw [h]
  | cons inc rest ih =>
    simp only [findFileLoop, List.map_cons, List.mem_cons, forall_eq_or_imp]
    cases hst : env.Stat (env.Join inc path) with
    | some info => simp [fileExists, hst]
    | none => simp only [ih]; simp [fileExists, hst]

/-- C3: over a fixed file system, `findFile` returns the first existing candidate in
the order: the path itself, then `filepath.Join(inc, path)` for each include path in
list order; its only error is "not found", returned exactly when no candidate
exists. -/
theorem findFile_first_existing (env : Env) (path : String) (includePaths : List String) :
    (∀ r, findFile env path includePaths = .ok r ↔
      ∃ pre post, candidates env path includePaths = pre ++ r :: post ∧
        (∀ c ∈ pre, fileExists env c = false) ∧ fileExists env r = true) ∧
    (findFile env path includePaths = .error "not found" ↔
      ∀ c ∈ candidates env path includePaths, fileExists env c = false) ∧
    (∀ e, findFile env path includePaths = .error e → e = "not found") := by
  simp only [findFile, candidates]
  cases hst : env.Stat path with
  | some info =>
    refine ⟨fun r => ⟨?_, ?_⟩, ?_, ?_⟩
    · intro h
      cases h
      exact ⟨[], _, rfl, by simp, by simp [fileExists, hst]⟩
    · rintro ⟨pre, post, heq, hpre, _⟩
      cases pre with
      | nil => simp at heq; rw [heq.1]
      | cons c pre =>
        simp at heq
        have := hpre c (List.mem_cons_self _ _)
        rw [← heq.1] at this
        simp [fileExists, hst] at this
    · simp [fileExists, hst]
    · intro e h; cases h
  | none =>
    simp only
    refine ⟨fun r => ?_, ?_, ?_⟩
    · rw [findFileLoop_ok_iff]
      constructor
      · rintro ⟨pre, post, heq, hpre, hr⟩
        refine ⟨path :: pre, post, by simp [heq], ?_, hr⟩
        intro c hc
        rcases List.mem_cons.mp hc with h | h
        · simp [h, fileExists, hst]
        · exact hpre c h
      · rintro ⟨pre, post, heq, hpre, hr⟩
        cases pre with
        | nil =>
          simp at heq
          rw [← heq.1] at hr
          simp [fileExists, hst] at hr
        | cons c pre =>
          simp at heq
          exact ⟨pre, post, heq.2, fun d hd => hpre d (List.mem_cons_of_mem _ hd), hr⟩
    · rw [findFileLoop_error_iff]
      simp [fileExists, hst]
    · intro e h
      exact ((findFileLoop_error_iff env path e includePaths).mp h).1

theorem findFile_error_iff (env : Env) (path : String) (includePaths : List String)
    (e : String) :
    findFile env path includePaths = .error e ↔
      e = "not found" ∧ ∀ c ∈ candidates env path includePaths, fileExists env c = false := by
  simp only [findFile, candidates]
  cases hst : env.Stat path with
  | some info => simp [fileExists, hst]
  | none =>
    simp only
    rw [findFileLoop_error_iff]
    simp [fileExists, hst]

theorem findFile_ok_of_exists (env : Env) (path : String) (includePaths : List String)
    (h : ∃ c ∈ candidates env path includePaths, fileExists env c = true) :
    ∃ r, findFile env path includePaths = .ok r := by
  cases hf : findFile env path includePaths with
  | ok r => exact ⟨r, rfl⟩
  | error e =>
    obtain ⟨c, hc, hex⟩ := h
    have := ((findFile_error_iff env path includePaths e).mp hf).2 c hc
    rw [this] at hex
    cases hex

/-- One iteration of the target-path loop on an entry that is absolute or is found
by `findFile` does not return: the loop goes on with some accumulator. -/
theorem saneFilesLoop_step (env : Env) (includePaths : List String) (q : String)
    (rest saneFiles : List String)
    (hq : env.IsAbs q = true ∨ ∃ r, findFile env q includePaths = .ok r) :
    ∃ acc, saneFilesLoop env includePaths (q :: rest) saneFiles =
      saneFilesLoop env includePaths rest acc := by
  have key : ∃ r, (if env.IsAbs q = false then
        match findFile env q includePaths with
        | .error _ => Except.error (notFoundMessage q includePaths)
        | .ok hPath => Except.ok hPath
      else Except.ok q) = Except.ok r := by
    cases hab : env.IsAbs q with
    | true => exact ⟨q, by simp⟩
    | false =>
      rcases hq with h | ⟨r, hr⟩
      · rw [hab] at h; cases h
      · exact ⟨r, by simp [hr]⟩
  obtain ⟨r, hr⟩ := key
  simp only [saneFilesLoop, hr]
  cases env.Stat r with
  | none => exact ⟨saneFiles, rfl⟩
  | some info =>
    obtain ⟨d⟩ := info
    cases d with
    | true => exact ⟨saneFiles, by simp⟩
    | false => exact ⟨_, by simp; rfl⟩

theorem saneFilesLoop_first_missing (env : Env) (includePaths : List String)
    (path : String) (post : List String)
    (hrel : env.IsAbs path = false)
    (hmiss : ∀ c ∈ candidates env path includePaths, fileExists env c = false) :
    ∀ (pre saneFiles : List String),
      (∀ q ∈ pre, env.IsAbs q = true ∨ ∃ r, findFile env q includePaths = .ok r) →
      saneFilesLoop env includePaths (pre ++ path :: post) saneFiles =
        .error (notFoundMessage path includePaths) := by
  intro pre
  induction pre with
  | nil =>
    intro saneFiles _
    have hf : findFile env path includePaths = .error "not found" :=
      (findFile_error_iff env path includePaths _).mpr ⟨rfl, hmiss⟩
    simp [saneFilesLoop, hrel, hf]
  | cons q pre ih =>
    intro saneFiles hpre
    obtain ⟨acc, hacc⟩ := saneFilesLoop_step env includePaths q (pre ++ path :: post)
      saneFiles (hpre q (List.mem_cons_self _ _))
    rw [List.cons_append, hacc]
    exact ih acc (fun d hd => hpre d (List.mem_cons_of_mem _ hd))

/-- C4: when some non-absolute target path exists neither in the working directory
nor under any include path, `New` returns no parser and the error
"parser: file specified but not found: <path> (include paths: <IncludePaths joined
by ", ">)" for the first such target path in list order. -/
theorem New_reports_first_missing (t : Tables) (env : Env) (cfg : Config)
    (pre post : List String) (path : String)
    (hsplit : cfg.TargetPaths = pre ++ path :: post)
    (hrel : env.IsAbs path = false)
    (hmiss : ∀ c ∈ candidates env path cfg.IncludePaths, fileExists env c = false)
    (hfirst : ∀ q ∈ pre, env.IsAbs q = true ∨
      ∃ c ∈ candidates env q cfg.IncludePaths, fileExists env c = true) :
    New t env (some cfg) =
      .error ("parser: file specified but not found: " ++ path ++ " (include paths: " ++
        String.intercalate ", " cfg.IncludePaths ++ ")") := by
  apply New_of_processTargetPaths_error
  have hT : (checkConfig t (some cfg)).TargetPaths = pre ++ path :: post := by
    rw [checkConfig_TargetPaths]; exact hsplit
  have hI : (checkConfig t (some cfg)).IncludePaths = cfg.IncludePaths := by
    rw [checkConfig_IncludePaths]; rfl
  have hloop := saneFilesLoop_first_missing env cfg.IncludePaths path post hrel hmiss pre []
    (fun q hq => (hfirst q hq).imp id (findFile_ok_of_exists env q cfg.IncludePaths))
  simp only [processTargetPaths, hT, hI, hloop]
  simp [notFoundMessage]

theorem New_reports_first_missing_witness :
    New demoTables demoEnv
        (some { TargetPaths := ["/abs/x.h", "bar.h", "gone.h", "lost.h"],
                IncludePaths := ["inc", "sub"] }) =
      .error ("parser: file specified but not found: " ++ "gone.h" ++ " (include paths: " ++
        String.intercalate ", " ["inc", "sub"] ++ ")") :=
  New_reports_first_missing demoTables demoEnv
    { TargetPaths := ["/abs/x.h", "bar.h", "gone.h", "lost.h"], IncludePaths := ["inc", "sub"] }
    ["/abs/x.h", "bar.h"] ["lost.h"] "gone.h" rfl (by decide)
    (by decide) (by decide)

/-- C6 (the code at a failing input): when `filepath.Abs` fails because the working
directory cannot be determined, the target list `["foo.h"]` is non-empty, its only
entry is not absolute and resolves via `findFile` to `foo.h`, an existing file that is
not a directory; the path-processing step raises no error, yet the resulting list is
`[""]`, the string returned next to the error, and not `["foo.h"]`. A directory entry
placed before it (`sub`) is dropped without a failure. -/
theorem processTargetPaths_abs_failure_stores_empty :
    noCwdEnv.IsAbs "foo.h" = false ∧
    findFile noCwdEnv "foo.h" [] = .ok "foo.h" ∧
    noCwdEnv.Stat "foo.h" = some { IsDir := false } ∧
    noCwdEnv.Abs "foo.h" = ("", some "getwd failed") ∧
    processTargetPaths noCwdEnv (checkConfig demoTables (some { TargetPaths := ["foo.h"] })) =
      .ok { TargetPaths := [""], archBits := 64 } ∧
    noCwdEnv.Stat "sub" = some { IsDir := true } ∧
    processTargetPaths noCwdEnv
        (checkConfig demoTables (some { TargetPaths := ["sub", "foo.h"] })) =
      .ok { TargetPaths := [""], archBits := 64 } ∧
    ([""] : List String) ≠ ["foo.h"] :=
  ⟨by decide, rfl, rfl, rfl, rfl, rfl, rfl, by decide⟩

/-- C5 (the code at a failing input): with working directory `/work`, the relative
targets `foo.h` (found in the working directory) and `bar.h` (found under the relative
include directory `inc`) are processed without error and stay `foo.h` and
`inc/bar.h`: neither is absolute, although `filepath.Abs` succeeds on both with
`/work/foo.h` and `/work/inc/bar.h`. -/
theorem processTargetPaths_leaves_relative :
    processTargetPaths demoEnv
        (checkConfig demoTables (some { TargetPaths := ["foo.h", "bar.h"],
                                        IncludePaths := ["inc"] })) =
      .ok { TargetPaths := ["foo.h", "inc/bar.h"], IncludePaths := ["inc"], archBits := 64 } ∧
    demoEnv.IsAbs "foo.h" = false ∧ demoEnv.IsAbs "inc/bar.h" = false ∧
    demoEnv.Abs "foo.h" = ("/work/foo.h", none) ∧
    demoEnv.Abs "inc/bar.h" = ("/work/inc/bar.h", none) ∧
    demoEnv.IsAbs "/work/foo.h" = true ∧ demoEnv.IsAbs "/work/inc/bar.h" = true :=
  ⟨rfl, by decide, by decide, rfl, rfl, by decide, by decide⟩

theorem findFile_congr (env env2 : Env) (hS : env2.Stat = env.Stat)
    (hJ : env2.Join = env.Join) (path : String) (includePaths : List String) :
    findFile env2 path includePaths = findFile env path includePaths := by
  have hl : ∀ incs, findFileLoop env2 path incs = findFileLoop env path incs := by
    intro incs
    induction incs with
    | nil => rfl
    | cons inc incs ih => simp only [findFileLoop, hS, hJ, ih]
  simp only [findFile, hS, hl]

/-- The target-path loop reads the environment only through `os.Stat`,
`filepath.IsAbs`, `filepath.Join` and `filepath.Abs`. -/
theorem saneFilesLoop_congr (env env2 : Env) (hS : env2.Stat = env.Stat)
    (hI : env2.IsAbs = env.IsAbs) (hJ : env2.Join = env.Join) (hA : env2.Abs = env.Abs)
    (includePaths paths saneFiles : List String) :
    saneFilesLoop env2 includePaths paths saneFiles =
      saneFilesLoop env includePaths paths saneFiles := by
  induction paths generalizing saneFiles with
  | nil => rfl
  | cons p rest ih =>
    simp only [saneFilesLoop, hS, hI, hA, findFile_congr env env2 hS hJ, ih]

/-- C7: when the `Arch` identifier is not a key of `arches`, or maps to a bit-width
that is neither `Arch32` nor `Arch64`, `checkConfig` returns the configuration
(`&Config{}` for `nil`) with `archBits` set to `Arch64` and nothing else changed. -/
theorem checkConfig_unrecognized_defaults (t : Tables) (cfg : Option Config)
    (h : t.arches (orEmpty cfg).Arch = none ∨
      ∃ a, t.arches (orEmpty cfg).Arch = some a ∧ a ≠ t.Arch32 ∧ a ≠ t.Arch64) :
    checkConfig t cfg = { orEmpty cfg with archBits := t.Arch64 } := by
  have hc : checkConfig t cfg =
      match t.arches (orEmpty cfg).Arch with
      | none => { orEmpty cfg with archBits := t.Arch64 }
      | some arch =>
        if arch ≠ t.Arch32 ∧ arch ≠ t.Arch64 then { orEmpty cfg with archBits := t.Arch64 }
        else orEmpty cfg := by
    cases cfg <;> rfl
  rw [hc]
  rcases h with h | ⟨a, h, h32, h64⟩
  · rw [h]
  · rw [h]; simp [h32, h64]

theorem checkConfig_unrecognized_defaults_witness :
    checkConfig demoTables (some { Arch := "pdp11", TargetPaths := ["foo.h"] }) =
        { Arch := "pdp11", TargetPaths := ["foo.h"], archBits := 64 } ∧
    checkConfig demoTables (some { Arch := "x32", archBits := 32 }) =
        { Arch := "x32", archBits := 64 } ∧
    checkConfig demoTables none = { archBits := 64 } :=
  ⟨checkConfig_unrecognized_defaults demoTables
      (some { Arch := "pdp11", TargetPaths := ["foo.h"] }) (Or.inl (by decide)),
   checkConfig_unrecognized_defaults demoTables (some { Arch := "x32", archBits := 32 })
      (Or.inr ⟨48, by decide, by decide, by decide⟩),
   checkConfig_unrecognized_defaults demoTables none (Or.inl (by decide))⟩

/-- A recognized 32-bit or 64-bit architecture leaves the configuration as it was
given: `archBits` is not assigned on that path. -/
theorem checkConfig_recognized_unchanged (t : Tables) (cfg : Config) (a : TargetArchBits)
    (ha : t.arches cfg.Arch = some a) (h : a = t.Arch32 ∨ a = t.Arch64) :
    checkConfig t (some cfg) = cfg := by
  simp only [checkConfig, ha]
  rcases h with h | h <;> simp [h]

/-- C8 (the code at a failing input): with `arches["386"] = Arch32 = 32` and
`arches["amd64"] = Arch64 = 64`, a fresh configuration for "386" or for "amd64"
keeps `archBits = 0` after `checkConfig`, and `New` selects `predefinedBase`
although `predefines` holds a block for 32 and one for 64. -/
theorem checkConfig_recognized_arch_not_filled :
    demoTables.arches "386" = some demoTables.Arch32 ∧
    (checkConfig demoTables (some { Arch := "386", TargetPaths := ["foo.h"] })).archBits = 0 ∧
    demoTables.Arch32 = 32 ∧
    demoTables.predefines demoTables.Arch32 = some "#define __i386__ 1\n" ∧
    (New demoTables demoEnv (some { Arch := "386", TargetPaths := ["foo.h"] })).toOption.map
        (fun p => p.predefined) = some demoTables.predefinedBase ∧
    demoTables.arches "amd64" = some demoTables.Arch64 ∧
    (checkConfig demoTables (some { Arch := "amd64", TargetPaths := ["foo.h"] })).archBits = 0 ∧
    demoTables.Arch64 = 64 ∧
    demoTables.predefines demoTables.Arch64 = some "#define __x86_64__ 1\n" ∧
    (New demoTables demoEnv (some { Arch := "amd64", TargetPaths := ["foo.h"] })).toOption.map
        (fun p => p.predefined) = some demoTables.predefinedBase ∧
    demoTables.predefinedBase = "#define __STDC__ 1\n" :=
  ⟨rfl, rfl, rfl, rfl, rfl, rfl, rfl, rfl, rfl, rfl, rfl⟩

theorem length_pos_iff_ne_empty (s : String) : s.length > 0 ↔ s ≠ "" := by
  obtain ⟨l⟩ := s
  cases l with
  | nil => simp [String.length]
  | cons c l =>
    simp only [String.length, List.length_cons, gt_iff_lt, Nat.zero_lt_succ, true_iff]
    intro h
    have := congrArg String.data h
    simp at this

theorem processTargetPaths_ok_fields (env : Env) (cfg cfg2 : Config)
    (h : processTargetPaths env cfg = .ok cfg2) :
    cfg2 = { cfg with TargetPaths := cfg2.TargetPaths } := by
  simp only [processTargetPaths] at h
  split at h
  · split at h
    · cases h
    · cases h; rfl
  · cases h

theorem processTargetPaths_congr (env env2 : Env) (hS : env2.Stat = env.Stat)
    (hI : env2.IsAbs = env.IsAbs) (hJ : env2.Join = env.Join) (hA : env2.Abs = env.Abs)
    (cfg : Config) :
    processTargetPaths env2 cfg = processTargetPaths env cfg := by
  simp only [processTargetPaths, saneFilesLoop_congr env env2 hS hI hJ hA]

theorem buildPredefined_unreadable (t : Tables) (env : Env) (cfg : Config)
    (hpath : cfg.CustomDefinesPath ≠ "")
    (hread : env.ReadFile cfg.CustomDefinesPath = none) :
    buildPredefined t env cfg =
      .error "parser: custom defines file provided but can\x27t be read" := by
  have hlen : cfg.CustomDefinesPath.length > 0 := (length_pos_iff_ne_empty _).mpr hpath
  simp [buildPredefined, hlen, hread]

/-- The outcome of `New` when the custom-definitions file cannot be read: the error
of the path-processing step if there is one, the read error otherwise. -/
theorem New_unreadable_eq (t : Tables) (env : Env) (cfg : Config)
    (hpath : cfg.CustomDefinesPath ≠ "")
    (hread : env.ReadFile cfg.CustomDefinesPath = none) :
    New t env (some cfg) =
      match processTargetPaths env (checkConfig t (some cfg)) with
      | .error err => .error err
      | .ok _ => .error "parser: custom defines file provided but can\x27t be read" := by
  simp only [New]
  cases hp : processTargetPaths env (checkConfig t (some cfg)) with
  | error err => rfl
  | ok cfg2 =>
    have hfields := processTargetPaths_ok_fields env _ _ hp
    have hc : cfg2.CustomDefinesPath = cfg.CustomDefinesPath := by
      rw [hfields]
      exact checkConfig_CustomDefinesPath t (some cfg)
    have hb := buildPredefined_unreadable t env cfg2 (by rw [hc]; exact hpath)
      (by rw [hc]; exact hread)
    simp only [hb]

/-- C9: with a non-empty `CustomDefinesPath` naming a file that cannot be read, `New`
returns no parser and an error; when path processing has succeeded the error is
"parser: custom defines file provided but can't be read", and the outcome does not
depend on the external configuration validator, which is not reached. -/
theorem New_unreadable_custom_defines (t : Tables) (env : Env) (cfg : Config)
    (hpath : cfg.CustomDefinesPath ≠ "")
    (hread : env.ReadFile cfg.CustomDefinesPath = none) :
    (∃ e, New t env (some cfg) = .error e) ∧
    (∀ cfg2, processTargetPaths env (checkConfig t (some cfg)) = .ok cfg2 →
      New t env (some cfg) =
        .error "parser: custom defines file provided but can\x27t be read") ∧
    (∀ chk : ParseConfig → Option String,
      New t { env with CheckParseConfig := chk } (some cfg) = New t env (some cfg)) := by
  have hN := New_unreadable_eq t env cfg hpath hread
  refine ⟨?_, ?_, ?_⟩
  · rw [hN]
    cases processTargetPaths env (checkConfig t (some cfg)) with
    | error err => exact ⟨err, rfl⟩
    | ok cfg2 => exact ⟨_, rfl⟩
  · intro cfg2 hp
    rw [hN, hp]
  · intro chk
    rw [hN, New_unreadable_eq t { env with CheckParseConfig := chk } cfg hpath hread,
      processTargetPaths_congr env { env with CheckParseConfig := chk } rfl rfl rfl rfl]

theorem New_unreadable_custom_defines_witness :
    New demoTables demoEnv
        (some { TargetPaths := ["foo.h"], CustomDefinesPath := "secret.h" }) =
      .error "parser: custom defines file provided but can\x27t be read" :=
  (New_unreadable_custom_defines demoTables demoEnv
      { TargetPaths := ["foo.h"], CustomDefinesPath := "secret.h" }
      (by decide) (by decide)).2.1 _ rfl

theorem New_eq_handOver (t : Tables) (env : Env) (cfg : Option Config) (cfg2 : Config)
    (text : String)
    (hproc : processTargetPaths env (checkConfig t cfg) = .ok cfg2)
    (hb : buildPredefined t env cfg2 = .ok text) :
    New t env cfg = handOver env cfg2 text := by
  simp only [New, hproc, hb, ccParserConfig, handOver, mkParseConfig]
  cases env.CheckParseConfig _ <;> rfl

/-- C10 (as amended): once path processing has succeeded, the predefined text `New`
hands to the external package is base ++ "\n// custom defines below\n" ++ c when
`CustomDefinesPath` is non-empty and names a readable file with non-empty contents c;
it is base unchanged when `CustomDefinesPath` is empty or the file is readable and
empty. Here base is the block `predefines` holds for the configuration's `archBits`,
or `predefinedBase` when there is none. -/
theorem New_predefined_text (t : Tables) (env : Env) (cfg cfg2 : Config)
    (hproc : processTargetPaths env (checkConfig t (some cfg)) = .ok cfg2) :
    (∀ c, cfg.CustomDefinesPath ≠ "" → env.ReadFile cfg.CustomDefinesPath = some c →
      c ≠ "" →
      New t env (some cfg) = handOver env cfg2
        (basePredefined t (checkConfig t (some cfg)) ++ "\n// custom defines below\n" ++ c)) ∧
    (cfg.CustomDefinesPath ≠ "" → env.ReadFile cfg.CustomDefinesPath = some "" →
      New t env (some cfg) = handOver env cfg2 (basePredefined t (checkConfig t (some cfg)))) ∧
    (cfg.CustomDefinesPath = "" →
      New t env (some cfg) = handOver env cfg2 (basePredefined t (checkConfig t (some cfg)))) := by
  have hfields := processTargetPaths_ok_fields env _ _ hproc
  have hc : cfg2.CustomDefinesPath = cfg.CustomDefinesPath := by
    rw [hfields]
    exact checkConfig_CustomDefinesPath t (some cfg)
  have hbase : basePredefined t cfg2 = basePredefined t (checkConfig t (some cfg)) := by
    rw [hfields]
    rfl
  refine ⟨?_, ?_, ?_⟩
  · intro c hpath hread hne
    apply New_eq_handOver t env (some cfg) cfg2 _ hproc
    have h1 : cfg.CustomDefinesPath.length > 0 := (length_pos_iff_ne_empty _).mpr hpath
    have h2 : c.length > 0 := (length_pos_iff_ne_empty _).mpr hne
    simp [buildPredefined, hc, h1, hread, h2, hbase]
  · intro hpath hread
    apply New_eq_handOver t env (some cfg) cfg2 _ hproc
    have h1 : cfg.CustomDefinesPath.length > 0 := (length_pos_iff_ne_empty _).mpr hpath
    simp [buildPredefined, hc, h1, hread, hbase]
  · intro hpath
    apply New_eq_handOver t env (some cfg) cfg2 _ hproc
    simp [buildPredefined, hc, hpath, hbase]

theorem New_predefined_text_witness :
    New demoTables demoEnv
        (some { Arch := "sparc", TargetPaths := ["foo.h"], CustomDefinesPath := "defs.h" }) =
      handOver demoEnv { Arch := "sparc", TargetPaths := ["foo.h"],
                         CustomDefinesPath := "defs.h", archBits := 64 }
        (basePredefined demoTables
            (checkConfig demoTables
              (some { Arch := "sparc", TargetPaths := ["foo.h"],
                      CustomDefinesPath := "defs.h" })) ++
          "\n// custom defines below\n" ++ "#define X 1\n") :=
  (New_predefined_text demoTables demoEnv
      { Arch := "sparc", TargetPaths := ["foo.h"], CustomDefinesPath := "defs.h" }
      { Arch := "sparc", TargetPaths := ["foo.h"], CustomDefinesPath := "defs.h",
        archBits := 64 } rfl).1
    "#define X 1\n" (by decide) rfl (by decide)

/-- C10 (counterexample): for the readable but empty custom-definitions file
`empty.h`, the text handed over is the base block alone, without the marker line. -/
theorem New_empty_custom_defines_no_marker :
    ¬ (∀ (t : Tables) (env : Env) (cfg cfg2 : Config) (c : String),
        processTargetPaths env (checkConfig t (some cfg)) = .ok cfg2 →
        cfg.CustomDefinesPath ≠ "" → env.ReadFile cfg.CustomDefinesPath = some c →
        New t env (some cfg) = handOver env cfg2
          (basePredefined t (checkConfig t (some cfg)) ++ "\n// custom defines below\n" ++ c)) := by
  intro h
  have h1 := h demoTables demoEnv
    { TargetPaths := ["foo.h"], CustomDefinesPath := "empty.h" }
    { TargetPaths := ["foo.h"], CustomDefinesPath := "empty.h", archBits := 64 } ""
    rfl (by decide) rfl
  have h2 : (New demoTables demoEnv
      (some { TargetPaths := ["foo.h"], CustomDefinesPath := "empty.h" })).toOption.map
        (fun p => p.predefined) = some "#define __x86_64__ 1\n" := rfl
  rw [h1] at h2
  have h3 : (handOver demoEnv
      { TargetPaths := ["foo.h"], CustomDefinesPath := "empty.h", archBits := 64 }
      (basePredefined demoTables
          (checkConfig demoTables
            (some { TargetPaths := ["foo.h"], CustomDefinesPath := "empty.h" })) ++
        "\n// custom defines below\n" ++ "")).toOption.map (fun p => p.predefined) =
      some "#define __x86_64__ 1\n\n// custom defines below\n" := rfl
  rw [h3] at h2
  exact absurd (Option.some.inj h2) (by decide)

end CForGo
